import Mathlib

/-!
Verification of the cnc-vlo OAI-PMH endpoint against its specification.

The development shallowly embeds the Go sources of the repository:

* `oaipmh/args.go` — verbs, argument names, per-verb argument grammar;
* the OAI-PMH handler (`getReqResp`, `handleRequest`, `HandleOAIGet`);
* `cnchook` — the CNC hook operations (`GetRecord`, `ListIdentifiers`,
  `ListRecords`, `ListMetadataFormats`, `Identify`) and the two metadata
  converters (`dcRecordFromData`, `cmdiLindatClarinRecordFromData`) together
  with the free-text author parser (`getAuthorList`);
* `cncdb/cncdb.go` — the locale parser (`parseLocale`) and the date-range
  predicate of `ListRecordInfo`.

Strings are manipulated as `List Char`; Go `time.Time` instants are embedded
as `Int` seconds since the Unix epoch (UTC); Go `sql.NullString` /
`sql.NullInt64` keep their two-field shape.  External collaborators (the MySQL
store, `golang.org/x/text/language.Parse`) enter as explicit function
parameters or executable stand-ins, documented at their definitions.
-/

namespace CncVlo

/-! ## Go string primitives

Executable models of the `strings` standard-library functions the repository
uses: `strings.Split` with a one-character separator, `strings.Trim(s, " ")`,
`strings.ReplaceAll`, and `strings.Contains`. -/

/-- Model of Go `strings.Split(s, sep)` for a one-character separator `c`:
splitting never yields an empty list, and splitting the empty string yields
one empty part. -/
def splitChar (c : Char) : List Char → List (List Char)
  | [] => [[]]
  | x :: xs =>
    match splitChar c xs with
    | [] => [[]]
    | r :: rs => if x = c then [] :: r :: rs else (x :: r) :: rs

/-- Model of Go `strings.Trim(s, " ")`: drop leading and trailing spaces. -/
def trimSpaces (l : List Char) : List Char :=
  ((l.dropWhile (· = ' ')).reverse.dropWhile (· = ' ')).reverse

/-- Recursion core of `replaceAll`, structural on a fuel bound so that it
reduces definitionally; one unit of fuel is spent per consumed character, so
`fuel = l.length` always suffices. -/
def replaceAllFuel (pat rep : List Char) : Nat → List Char → List Char
  | _, [] => []
  | 0, l => l
  | fuel + 1, c :: cs =>
    if pat.isPrefixOf (c :: cs) ∧ pat ≠ [] then
      rep ++ replaceAllFuel pat rep fuel (cs.drop (pat.length - 1))
    else
      c :: replaceAllFuel pat rep fuel cs

/-- Model of Go `strings.ReplaceAll(s, old, new)` for a non-empty `old`
pattern: left-to-right, non-overlapping replacement.  (The repository only
replaces the non-empty patterns "\r\n" and "/cnk:".) -/
def replaceAll (pat rep l : List Char) : List Char :=
  replaceAllFuel pat rep l.length l

/-- Model of Go `strings.Contains(s, substr)`. -/
def containsSub (pat : List Char) (l : List Char) : Bool :=
  l.tails.any (fun t => pat.isPrefixOf t)

theorem splitChar_ne_nil (c : Char) (l : List Char) : splitChar c l ≠ [] := by
  cases l with
  | nil => simp [splitChar]
  | cons x xs =>
    simp only [splitChar]
    cases splitChar c xs with
    | nil => simp
    | cons r rs =>
      by_cases h : x = c <;> simp [h]

theorem splitChar_not_mem (c : Char) (l : List Char) (h : c ∉ l) :
    splitChar c l = [l] := by
  induction l with
  | nil => simp [splitChar]
  | cons x xs ih =>
    simp only [List.mem_cons, not_or] at h
    simp only [splitChar, ih h.2]
    have hxc : ¬ x = c := fun hx => h.1 hx.symm
    simp [hxc]

theorem replaceAllFuel_not_contains (pat rep : List Char) (fuel : Nat)
    (l : List Char) (h : containsSub pat l = false) :
    replaceAllFuel pat rep fuel l = l := by
  induction fuel generalizing l with
  | zero => cases l <;> rfl
  | succ fuel ih =>
    cases l with
    | nil => rfl
    | cons x xs =>
      simp only [containsSub, List.tails, List.any_cons,
        Bool.or_eq_false_iff] at h
      rw [replaceAllFuel, if_neg (by simp [h.1])]
      congr 1
      exact ih xs (by simpa [containsSub] using h.2)

theorem replaceAll_not_contains (pat rep : List Char) (l : List Char)
    (h : containsSub pat l = false) :
    replaceAll pat rep l = l :=
  replaceAllFuel_not_contains pat rep l.length l h

/-! ## Author list parser

Embedding of `getAuthorList` from `cnchook/tools.go`:

```go
func getAuthorList(data *cncdb.DBData) []components.AuthorComponent {
    authors := []components.AuthorComponent{}
    for _, author := range strings.Split(strings.ReplaceAll(data.Authors, "\r\n", "\n"), "\n") {
        sAuthor := strings.Split(strings.Trim(author, " "), " ")
        if len(sAuthor) == 1 {
            authors = append(authors, components.AuthorComponent{LastName: sAuthor[0]})
        } else if len(sAuthor) > 1 {
            authors = append(authors, components.AuthorComponent{FirstName: sAuthor[0], LastName: sAuthor[1]})
        }
    }
    return authors
}
```
-/

/-- Embedding of `components.AuthorComponent` (Go zero value: both fields
empty strings; `LastName`-only construction leaves `FirstName` at ""). -/
structure AuthorComponent where
  lastName : String
  firstName : String := ""
  deriving DecidableEq, Repr

/-- Authors contributed by one line of the author block: the body of the
`for` loop of `getAuthorList`. -/
def lineAuthors (line : List Char) : List AuthorComponent :=
  let sAuthor := splitChar ' ' (trimSpaces line)
  if sAuthor.length = 1 then
    [{ lastName := (sAuthor.headD []).asString }]
  else if sAuthor.length > 1 then
    [{ firstName := (sAuthor.headD []).asString,
       lastName := ((sAuthor.drop 1).headD []).asString }]
  else
    []

/-- Embedding of `getAuthorList` (applied to the `Authors` field directly). -/
def getAuthorList (authors : String) : List AuthorComponent :=
  ((splitChar '\n' (replaceAll ['\r', '\n'] ['\n'] authors.toList)).map
    lineAuthors).flatten

theorem lineAuthors_length (line : List Char) : (lineAuthors line).length = 1 := by
  have h := splitChar_ne_nil ' ' (trimSpaces line)
  unfold lineAuthors
  cases hs : splitChar ' ' (trimSpaces line) with
  | nil => exact absurd hs h
  | cons a as =>
    cases as <;> simp

/-! ## Time model

Go `time.Time` instants are embedded as `Int` seconds since the Unix epoch,
always in UTC (`.In(time.UTC)` does not change an instant, only its display
zone, so it is the identity here).  `daysFromCivil` is the standard civil
calendar to epoch-day conversion used to give `time.Parse` layouts a
denotation. -/

/-- Days from the civil date `y-m-d` to 1970-01-01 (negative before the
epoch).  Standard era-based algorithm over the proleptic Gregorian
calendar. -/
def daysFromCivil (y m d : Int) : Int :=
  let y2 := if m ≤ 2 then y - 1 else y
  let era := Int.fdiv y2 400
  let yoe := y2 - era * 400
  let mp := if m > 2 then m - 3 else m + 9
  let doy := (153 * mp + 2) / 5 + d - 1
  let doe := yoe * 365 + yoe / 4 - yoe / 100 + doy
  era * 146097 + doe - 719468

def isLeapYear (y : Int) : Bool :=
  y % 4 = 0 && (y % 100 ≠ 0 || y % 400 = 0)

def daysInMonth (y : Int) (m : Nat) : Nat :=
  if m = 2 then (if isLeapYear y then 29 else 28)
  else if m = 4 ∨ m = 6 ∨ m = 9 ∨ m = 11 then 30
  else 31

def digitsToNat (cs : List Char) : Nat :=
  cs.foldl (fun a c => 10 * a + (c.toNat - 48)) 0

/-- Parse a field of exactly `n` decimal digits (Go layout fragments such as
"2006", "01", "02" demand fixed widths). -/
def parseFixedNat (n : Nat) (cs : List Char) : Option Nat :=
  if cs.length = n ∧ cs.all (·.isDigit) then some (digitsToNat cs) else none

/-- Model of Go `time.Parse(time.DateOnly, s)` (layout "2006-01-02"):
the instant of the date's start (midnight UTC) in epoch seconds, or `none`
for a malformed or out-of-range date. -/
def parseDateOnlyChars (cs : List Char) : Option Int :=
  match splitChar '-' cs with
  | [ys, ms, ds] =>
    match parseFixedNat 4 ys, parseFixedNat 2 ms, parseFixedNat 2 ds with
    | some y, some m, some d =>
      if 1 ≤ m ∧ m ≤ 12 ∧ 1 ≤ d ∧ d ≤ daysInMonth (y : Int) m then
        some (86400 * daysFromCivil (y : Int) (m : Int) (d : Int))
      else none
    | _, _, _ => none
  | _ => none

/-- Parse the "15:04:05" fragment into seconds past midnight. -/
def parseClock (cs : List Char) : Option Int :=
  match splitChar ':' cs with
  | [hs, ms, ss] =>
    match parseFixedNat 2 hs, parseFixedNat 2 ms, parseFixedNat 2 ss with
    | some h, some mi, some s =>
      if h < 24 ∧ mi < 60 ∧ s < 60 then some (3600 * (h : Int) + 60 * mi + s)
      else none
    | _, _, _ => none
  | _ => none

/-- Model of Go `time.Parse(time.RFC3339, s)` on whole-second timestamps:
"YYYY-MM-DDThh:mm:ss" followed by "Z" or a "±hh:mm" numeric offset, as an
epoch-second instant (fractional seconds are outside the modeled fragment). -/
def parseRFC3339Chars (cs : List Char) : Option Int :=
  match splitChar 'T' cs with
  | [date, rest] =>
    match parseDateOnlyChars date with
    | none => none
    | some base =>
      if rest.getLast? = some 'Z' then
        (parseClock rest.dropLast).map (fun t => base + t)
      else
        match splitChar '+' rest with
        | [hms, off] =>
          match parseClock hms, splitChar ':' off with
          | some t, [ohs, oms] =>
            match parseFixedNat 2 ohs, parseFixedNat 2 oms with
            | some oh, some om =>
              some (base + t - (3600 * (oh : Int) + 60 * om))
            | _, _ => none
          | _, _ => none
        | [hmsOnly] =>
          match splitChar '-' hmsOnly with
          | [hms, off] =>
            match parseClock hms, splitChar ':' off with
            | some t, [ohs, oms] =>
              match parseFixedNat 2 ohs, parseFixedNat 2 oms with
              | some oh, some om =>
                some (base + t + (3600 * (oh : Int) + 60 * om))
              | _, _ => none
            | _, _ => none
          | _ => none
        | _ => none
  | _ => none

/-- Embedding of the `from` branch of `VLOHandler.getReqResp`: an empty value
leaves the bound unset; a value containing "T" is parsed as RFC 3339; a bare
date is parsed as the date's start; a parse failure is the handler's hard
error return (`fmt.Errorf`). -/
def parseFromField (s : String) : Except String (Option Int) :=
  if s = "" then .ok none
  else if containsSub ['T'] s.toList then
    match parseRFC3339Chars s.toList with
    | some t => .ok (some t)
    | none => .error ("failed to parse from: " ++ s)
  else
    match parseDateOnlyChars s.toList with
    | some t => .ok (some t)
    | none => .error ("failed to parse from: " ++ s)

/-- Embedding of the `until` branch of `VLOHandler.getReqResp`: as for
`from`, except that a bare date additionally gets `24 * time.Hour` added
(`parsed = parsed.Add(24 * time.Hour)`). -/
def parseUntilField (s : String) : Except String (Option Int) :=
  if s = "" then .ok none
  else if containsSub ['T'] s.toList then
    match parseRFC3339Chars s.toList with
    | some t => .ok (some t)
    | none => .error ("failed to parse until: " ++ s)
  else
    match parseDateOnlyChars s.toList with
    | some t => .ok (some (t + 86400))
    | none => .error ("failed to parse until: " ++ s)

/-! ## Protocol layer: error taxonomy and argument grammar

Embedding of `oaipmh/args.go` and the error-code constants.  Go's `Verb` is
a string type; argument names are string constants.  (Identifier note: the
Go constant `ArgMetadataPrefix` and the request field `MetadataPrefix` are
rendered `argMetadataPref` / `metadataPref` here.) -/

inductive OAIPMHErrorCode where
  | badArgument
  | badResumptionToken
  | badVerb
  | cannotDisseminateFormat
  | idDoesNotExist
  | noRecordsMatch
  | noMetadataFormats
  | noSetHierarchy
  deriving DecidableEq, Repr

/-- Embedding of `OAIPMHError` (the `code` attribute plus the human-readable
message of the `error` element). -/
structure OAIPMHError where
  code : OAIPMHErrorCode
  message : String
  deriving DecidableEq, Repr

def argVerb : String := "verb"
def argIdentifier : String := "identifier"
def argMetadataPref : String := "metadataPrefix"
def argFrom : String := "from"
def argUntil : String := "until"
def argSet : String := "set"
def argResumptionToken : String := "resumptionToken"

def verbIdentify : String := "Identify"
def verbGetRecord : String := "GetRecord"
def verbListIdentifiers : String := "ListIdentifiers"
def verbListMetadataFormats : String := "ListMetadataFormats"
def verbListRecords : String := "ListRecords"
def verbListSets : String := "ListSets"

/-- Embedding of `Verb.Validate` (as a Boolean: `true` = no error). -/
def verbValidate (v : String) : Bool :=
  v = verbGetRecord || v = verbIdentify ||
  v = verbListIdentifiers || v = verbListMetadataFormats ||
  v = verbListRecords || v = verbListSets

/-- Embedding of `Verb.ValidateArg`: is `arg` in the verb's allowed set?
The Go `default` branch (hit by `Identify` and any other string) allows only
`verb`. -/
def verbValidateArg (v arg : String) : Bool :=
  if v = verbGetRecord then
    arg = argVerb || arg = argIdentifier || arg = argMetadataPref
  else if v = verbListIdentifiers then
    arg = argVerb || arg = argMetadataPref || arg = argFrom || arg = argUntil ||
      arg = argSet || arg = argResumptionToken
  else if v = verbListMetadataFormats then
    arg = argVerb || arg = argIdentifier
  else if v = verbListRecords then
    arg = argVerb || arg = argMetadataPref || arg = argFrom || arg = argUntil ||
      arg = argSet || arg = argResumptionToken
  else if v = verbListSets then
    arg = argVerb || arg = argResumptionToken
  else
    arg = argVerb

/-- The `reqArgs` list built by `Verb.ValidateRequiredArgs`. -/
def verbRequiredArgs (v : String) : List String :=
  if v = verbGetRecord then [argVerb, argIdentifier, argMetadataPref]
  else if v = verbListIdentifiers then [argVerb, argMetadataPref]
  else if v = verbListRecords then [argVerb, argMetadataPref]
  else [argVerb]

/-! `url.Values` is a map from parameter name to value list; the handler only
uses `Has` (key present) and `Get` (first value, "" when absent).  It is
embedded as an association list of single-valued parameters, ordered as
supplied. -/

def argsHas (args : List (String × String)) (k : String) : Bool :=
  args.any (fun kv => kv.1 = k)

def argsGet (args : List (String × String)) (k : String) : String :=
  match args.find? (fun kv => kv.1 = k) with
  | some kv => kv.2
  | none => ""

/-- Embedding of `Verb.ValidateRequiredArgs`: the first required argument
missing from `args`, or "" when all are present. -/
def verbValidateRequiredArgs (v : String) (args : List (String × String)) :
    String :=
  match (verbRequiredArgs v).find? (fun a => argsHas args a = false) with
  | some a => a
  | none => ""

/-- Embedding of `OAIPMHRequest` (the XML attributes of the request echo).
The `URL` field is the precomputed `basePath + "/oai"` join; `From`/`Until`
hold the parsed instants (`*time.Time`, `nil` when the argument was not
supplied). -/
structure OAIPMHRequest where
  url : String := ""
  verb : String := ""
  identifier : String := ""
  metadataPref : String := ""
  fromTime : Option Int := none
  untilTime : Option Int := none
  set : String := ""
  resumptionToken : String := ""
  deriving DecidableEq, Repr

/-- Embedding of `VLOHandler.getReqResp` (validation stage of a request).
`Except.error` is the Go `(nil, nil, err)` return (an internal failure,
HTTP 500 at the caller); `Except.ok (req, errs)` is the `(req, resp, nil)`
return where `errs` is the protocol error list accumulated on `resp`. -/
def getReqResp (oaiURL : String) (args : List (String × String)) :
    Except String (OAIPMHRequest × List OAIPMHError) :=
  let req0 : OAIPMHRequest := { url := oaiURL }
  if argsHas args argVerb = false then
    .ok (req0, [⟨.badArgument, "Missing required argument " ++ argVerb⟩])
  else
    let req1 := { req0 with verb := argsGet args argVerb }
    if verbValidate req1.verb = false then
      .ok (req1, [⟨.badVerb, "Invalid verb " ++ req1.verb⟩])
    else if verbValidateRequiredArgs req1.verb args ≠ "" then
      .ok (req1, [⟨.badArgument,
        "Missing required argument " ++ verbValidateRequiredArgs req1.verb args
          ++ " for verb " ++ req1.verb⟩])
    else
      match args.find? (fun kv => !verbValidateArg req1.verb kv.1) with
      | some kv =>
        .ok (req1, [⟨.badArgument,
          "Invalid argument " ++ kv.1 ++ " for verb " ++ req1.verb⟩])
      | none =>
        let req2 := { req1 with
          identifier := argsGet args argIdentifier
          metadataPref := argsGet args argMetadataPref }
        match parseFromField (argsGet args argFrom) with
        | .error e => .error e
        | .ok fromT =>
          match parseUntilField (argsGet args argUntil) with
          | .error e => .error e
          | .ok untilT =>
            .ok ({ req2 with
              fromTime := fromT
              untilTime := untilT
              set := argsGet args argSet
              resumptionToken := argsGet args argResumptionToken }, [])

/-! ## Metadata document types

Embedding of `oaipmh/formats` (Dublin Core and CMDI envelopes) and of the
CMDI profile components from `cnchook/profiles`.  Only data content is kept;
XML namespace attributes and schema-location constants carry no logic and
are omitted. -/

structure MultilangElement where
  value : String
  lang : String
  deriving DecidableEq, Repr

structure TypedElement where
  type_ : String := ""
  value : String
  deriving DecidableEq, Repr

/-- Embedding of `formats.DublinCore`: fifteen repeatable, optionally
language-tagged element arrays (`DataArray.Add` appends). -/
structure DublinCore where
  title : List MultilangElement := []
  creator : List MultilangElement := []
  subject : List MultilangElement := []
  description : List MultilangElement := []
  publisher : List MultilangElement := []
  contributor : List MultilangElement := []
  date : List MultilangElement := []
  type_ : List MultilangElement := []
  format : List MultilangElement := []
  identifier : List MultilangElement := []
  source : List MultilangElement := []
  language : List MultilangElement := []
  relation : List MultilangElement := []
  coverage : List MultilangElement := []
  rights : List MultilangElement := []
  deriving DecidableEq, Repr

structure ContactPersonComponent where
  lastName : String
  firstName : String
  email : String
  affiliation : String
  deriving DecidableEq, Repr

structure DatesComponent where
  dates : List TypedElement := []
  dateIssued : String := ""
  deriving DecidableEq, Repr

structure SizeComponent where
  size : String
  unit : String
  deriving DecidableEq, Repr

structure LanguageComponent where
  name : String
  code : String
  deriving DecidableEq, Repr

structure BibliographicInfoComponent where
  titles : List MultilangElement := []
  authors : List AuthorComponent := []
  dates : Option DatesComponent := none
  identifiers : List TypedElement := []
  contactPerson : ContactPersonComponent
  publishers : List String := []
  deriving DecidableEq, Repr

structure DataInfoComponent where
  type_ : String
  description : List MultilangElement := []
  languages : Option (List LanguageComponent) := none
  keywords : Option (List String) := none
  sizeInfo : Option (List SizeComponent) := none
  deriving DecidableEq, Repr

structure LicenseElement where
  name : String := ""
  uri : String
  deriving DecidableEq, Repr

/-- Embedding of `profiles.CNCResourceProfile` (the LINDAT_CLARIN-derived
component tree; fields never populated by the converter are omitted). -/
structure CNCResourceProfile where
  bibliographicInfo : BibliographicInfoComponent
  dataInfo : DataInfoComponent
  licenseInfo : List LicenseElement := []
  deriving DecidableEq, Repr

structure CMDIResourceType where
  mimeType : String := ""
  value : String
  deriving DecidableEq, Repr

structure CMDIResourceProxy where
  id : String
  resourceType : CMDIResourceType
  resourceRef : String
  deriving DecidableEq, Repr

structure CMDIResources where
  resourceProxyList : List CMDIResourceProxy := []
  deriving DecidableEq, Repr

structure CMDIHeader where
  mdSelfLink : String := ""
  mdProfile : String
  deriving DecidableEq, Repr

/-- Embedding of `formats.CMDIFormat` (envelope version, header, resources
and the profile component tree). -/
structure CMDIFormat where
  version : String
  header : CMDIHeader
  resources : CMDIResources
  components : CNCResourceProfile
  deriving DecidableEq, Repr

def cncResourceSchemaURL : String :=
  "https://catalog.clarin.eu/ds/ComponentRegistry/rest/registry/1.x/profiles/clarin.eu:cr1:p_1712653174418/xsd"

/-- Embedding of `formats.NewCMDI` applied to the `CNCResourceProfile`. -/
def newCMDI (profile : CNCResourceProfile) : CMDIFormat :=
  { version := "1.2"
    header := { mdProfile := cncResourceSchemaURL }
    resources := {}
    components := profile }

/-- The metadata carried by a record: one of the two target formats
(`ElementWrapper.Value` in Go is `any`; the repository only ever stores these
two document types in it). -/
inductive MetadataValue where
  | dc (doc : DublinCore)
  | cmdi (doc : CMDIFormat)
  deriving DecidableEq, Repr

/-! ## Protocol response types (`oaipmh` package) -/

structure OAIPMHRecordHeader where
  status : String := ""
  identifier : String := ""
  datestamp : Int := 0
  setSpec : List String := []
  deriving DecidableEq, Repr

structure OAIPMHRecord where
  header : Option OAIPMHRecordHeader := none
  metadata : Option MetadataValue := none
  deriving DecidableEq, Repr

/-- Embedding of `NewOAIPMHRecord`: fresh zero-valued header plus the wrapped
metadata document. -/
def newOAIPMHRecord (metadata : MetadataValue) : OAIPMHRecord :=
  { header := some {}, metadata := some metadata }

structure OAIPMHIdentify where
  repositoryName : String
  baseURL : String := ""
  adminEmail : List String
  earliestDatestamp : Int
  deletedRecord : String
  granularity : String
  protocolVersion : String := ""
  deriving DecidableEq, Repr

structure OAIPMHMetadataFormat where
  metadataPref : String
  schema : String
  metadataNamespace : String
  deriving DecidableEq, Repr

structure OAIPMHSet where
  setSpec : String
  setName : String
  deriving DecidableEq, Repr

/-- Embedding of `OAIPMHResponse`: the request echo, the error list, and at
most one verb-specific result pointer (`nil` = absent).  The wall-clock
`ResponseDate` and the XML namespace constants are omitted. -/
structure OAIPMHResponse where
  request : OAIPMHRequest
  errors : List OAIPMHError := []
  identify : Option OAIPMHIdentify := none
  getRecord : Option OAIPMHRecord := none
  listMetadataFormats : Option (List OAIPMHMetadataFormat) := none
  listIdentifiers : Option (List OAIPMHRecordHeader) := none
  listRecords : Option (List OAIPMHRecord) := none
  listSets : Option (List OAIPMHSet) := none
  deriving DecidableEq, Repr

/-- Embedding of `OAIPMHErrors.Add` (append one coded error). -/
def addError (resp : OAIPMHResponse) (code : OAIPMHErrorCode) (msg : String) :
    OAIPMHResponse :=
  { resp with errors := resp.errors ++ [⟨code, msg⟩] }

/-- Embedding of `ResultWrapper[T]`. -/
structure ResultWrapper (α : Type) where
  data : α
  errors : List OAIPMHError := []
  httpCode : Nat
  deriving DecidableEq, Repr

/-- Embedding of `ResultWrapper.NoError`: no accumulated errors and an HTTP
code below 400. -/
def ResultWrapper.noError {α : Type} (w : ResultWrapper α) : Bool :=
  w.errors.isEmpty && decide (w.httpCode < 400)

/-- Embedding of `NewResultWrapper`: given data, empty errors, HTTP 200. -/
def newResultWrapper {α : Type} (data : α) : ResultWrapper α :=
  { data := data, httpCode := 200 }

/-- Embedding of the `VLOHook` interface: the six operations plus the two
capability queries. -/
structure VLOHook where
  identify : ResultWrapper OAIPMHIdentify
  getRecord : OAIPMHRequest → ResultWrapper OAIPMHRecord
  listIdentifiers : OAIPMHRequest → ResultWrapper (List OAIPMHRecordHeader)
  listMetadataFormats : OAIPMHRequest → ResultWrapper (List OAIPMHMetadataFormat)
  listRecords : OAIPMHRequest → ResultWrapper (List OAIPMHRecord)
  listSets : OAIPMHRequest → ResultWrapper (List OAIPMHSet)
  supportsSets : Bool
  supportedMetadataPrefs : List String

/-- Observable outcome of a dispatch: either an XML response body written
with an HTTP code (`writeXMLResponse`), or `ctx.AbortWithStatus` — a bare
status with no XML body. -/
inductive HandleOutcome where
  | write (code : Nat) (resp : OAIPMHResponse)
  | abort (code : Nat)
  deriving DecidableEq, Repr

/-- The epilogue of `VLOHandler.handleRequest`: append the operation's errors
to the response; a data-less failure code aborts, anything else is written. -/
def finishResp (resp : OAIPMHResponse) (errors : List OAIPMHError)
    (httpCode : Nat) : HandleOutcome :=
  let resp := { resp with errors := resp.errors ++ errors }
  if 400 ≤ httpCode ∧ resp.errors = [] then .abort httpCode
  else .write httpCode resp

/-- Embedding of `VLOHandler.handleRequest`: the verb switch with its
per-verb preconditions. -/
def handleRequest (h : VLOHook) (req : OAIPMHRequest) (resp : OAIPMHResponse) :
    HandleOutcome :=
  if req.verb = verbIdentify then
    let ans := h.identify
    let resp :=
      if ans.noError then
        { resp with identify := some { ans.data with
            baseURL := req.url, protocolVersion := "2.0" } }
      else resp
    finishResp resp ans.errors ans.httpCode
  else if req.verb = verbGetRecord then
    if h.supportedMetadataPrefs.contains req.metadataPref = false then
      .write 400 (addError resp .cannotDisseminateFormat "Unknown metadata format")
    else
      let ans := h.getRecord req
      let resp :=
        if ans.noError then { resp with getRecord := some ans.data } else resp
      finishResp resp ans.errors ans.httpCode
  else if req.verb = verbListIdentifiers then
    if h.supportedMetadataPrefs.contains req.metadataPref = false then
      .write 400 (addError resp .cannotDisseminateFormat "Unknown metadata format")
    else if req.set ≠ "" ∧ h.supportsSets = false then
      .write 501 (addError resp .noSetHierarchy "Sets functionality not implemented")
    else
      let ans := h.listIdentifiers req
      let resp :=
        if ans.noError then { resp with listIdentifiers := some ans.data } else resp
      finishResp resp ans.errors ans.httpCode
  else if req.verb = verbListMetadataFormats then
    let ans := h.listMetadataFormats req
    let resp :=
      if ans.noError then { resp with listMetadataFormats := some ans.data } else resp
    finishResp resp ans.errors ans.httpCode
  else if req.verb = verbListRecords then
    if h.supportedMetadataPrefs.contains req.metadataPref = false then
      .write 400 (addError resp .cannotDisseminateFormat "Unknown metadata format")
    else if req.set ≠ "" ∧ h.supportsSets = false then
      .write 501 (addError resp .noSetHierarchy "Sets functionality not implemented")
    else
      let ans := h.listRecords req
      let resp :=
        if ans.noError then { resp with listRecords := some ans.data } else resp
      finishResp resp ans.errors ans.httpCode
  else if req.verb = verbListSets then
    if h.supportsSets = false then
      .write 501 (addError resp .noSetHierarchy "Sets functionality not implemented")
    else
      let ans := h.listSets req
      let resp :=
        if ans.noError then { resp with listSets := some ans.data } else resp
      finishResp resp ans.errors ans.httpCode
  else
    finishResp (addError resp .badArgument ("Verb not implemented " ++ req.verb))
      [] 501

/-- Embedding of `VLOHandler.HandleOAIGet`: validate, short-circuit on an
internal failure (HTTP 500, no body) or on validation errors (HTTP 400 with
the error list), otherwise dispatch. -/
def handleOAIGet (h : VLOHook) (oaiURL : String)
    (args : List (String × String)) : HandleOutcome :=
  match getReqResp oaiURL args with
  | .error _ => .abort 500
  | .ok (req, errs) =>
    let resp : OAIPMHResponse := { request := req, errors := errs }
    if resp.errors.isEmpty = false then .write 400 resp
    else handleRequest h req resp

/-! ## Database layer (`cncdb` package)

`sql.NullString` / `sql.NullInt64` keep their two-field shape (`Valid` flag
plus zero-valued payload): the code sometimes tests `Valid` and sometimes
tests `String != ""`, and the two are not interchangeable. -/

structure NullString where
  valid : Bool := false
  str : String := ""
  deriving DecidableEq, Repr

structure NullInt64 where
  valid : Bool := false
  int : Int := 0
  deriving DecidableEq, Repr

/-- Minimal embedding of `golang.org/x/text/language.Tag`: the repository
only ever reads the tag's base language. -/
structure LangTag where
  base : String
  deriving DecidableEq, Repr

structure ContactPersonData where
  firstname : String := ""
  lastname : String := ""
  email : String := ""
  affiliation : NullString := {}
  deriving DecidableEq, Repr

structure CorpusData where
  size : NullInt64 := {}
  locale : Option LangTag := none
  keywords : NullString := {}
  deriving DecidableEq, Repr

/-- Embedding of `cncdb.DBData`, the normalized record row. -/
structure DBData where
  id : Int := 0
  date : Int := 0
  hosted : Bool := false
  type_ : String := ""
  name : String := ""
  descEN : NullString := {}
  descCS : NullString := {}
  dateIssued : String := ""
  titleEN : String := ""
  titleCS : String := ""
  link : NullString := {}
  license : String := ""
  authors : String := ""
  contactPerson : ContactPersonData := {}
  corpusData : CorpusData := {}
  deriving DecidableEq, Repr

/-- Embedding of `CNCMySQLHandler.parseLocale`.  The external
`language.Parse` primitive is the parameter `langParse` (`none` = parse
error).  The structure of the source is kept exactly: strip everything after
the first "."; try a direct parse; on failure split the *original* string on
"_" (or, only if that yielded no parts, on "-"); demand exactly two
components and parse the first alone. -/
def parseLocale (langParse : String → Option LangTag) (loc : String) :
    Except String LangTag :=
  let tmp := splitChar '.' loc.toList
  let base := (tmp.headD []).asString
  match langParse base with
  | some ans => .ok ans
  | none =>
    let tmp2 := splitChar '_' loc.toList
    let tmp3 := if tmp2.length = 0 then splitChar '-' loc.toList else tmp2
    if tmp3.length ≠ 2 then .error ("unable to parse locale " ++ loc)
    else
      match langParse ((tmp3.headD []).asString) with
      | some ans => .ok ans
      | none => .error ("unable to parse locale component of " ++ loc)

/-- Specification-side variant of `parseLocale` with the dash-split fallback
deleted, used to show that branch is dead code.  (Everything else is
verbatim `parseLocale`.) -/
def parseLocaleNoDash (langParse : String → Option LangTag) (loc : String) :
    Except String LangTag :=
  let tmp := splitChar '.' loc.toList
  let base := (tmp.headD []).asString
  match langParse base with
  | some ans => .ok ans
  | none =>
    let tmp2 := splitChar '_' loc.toList
    if tmp2.length ≠ 2 then .error ("unable to parse locale " ++ loc)
    else
      match langParse ((tmp2.headD []).asString) with
      | some ans => .ok ans
      | none => .error ("unable to parse locale component of " ++ loc)

/-- The date-range condition of `CNCMySQLHandler.ListRecordInfo`, i.e. the
WHERE clauses `GREATEST(m.created, m.updated) >= ?` (for `from`) and
`GREATEST(m.created, m.updated) <= ?` (for `until`), each added only when
the bound is non-nil.  `lastModified` is the row's
`GREATEST(created, updated)` value. -/
def recordMatchesRange (fromT untilT : Option Int) (lastModified : Int) :
    Bool :=
  (match fromT with
   | some f => decide (f ≤ lastModified)
   | none => true) &&
  (match untilT with
   | some u => decide (lastModified ≤ u)
   | none => true)

/-- The record repository as seen by the hook: the four queries of
`CNCMySQLHandler`, as abstract fallible operations (`Except.error` = a MySQL
driver failure). -/
structure CNCDatabase where
  getFirstDate : Except String Int
  identifierExists : String → Except String Bool
  getRecordInfo : String → Except String (Option DBData)
  listRecordInfo : Option Int → Option Int → Except String (List DBData)

/-! ## CNC hook (`cnchook` package) -/

/-- Modelled from the spec: the `MetadataType` constants live in a `cnchook`
source file not included under `src/`; the spec's data model fixes the type
literals as `corpus` and `service`. -/
def corpusMetadataType : String := "corpus"

/-- Modelled from the spec: see `corpusMetadataType`. -/
def serviceMetadataType : String := "service"

def dublinCorePref : String := "oai_dc"

def cmdiPref : String := "cmdi"

/-- Stand-in for the external `display.English.Languages().Name` lookup of
`golang.org/x/text/language/display`; the produced label carries no protocol
logic and no claim depends on its value. -/
def englishDisplayName (base : String) : String := base

/-- Embedding of `getKontextPath` from `cnchook`. -/
def getKontextPath (corpusID : String) : String :=
  "https://www.korpus.cz/kontext/query?corpname=" ++ corpusID

def padZeros (w : Nat) (n : Nat) : String :=
  let s := toString n
  (List.replicate (w - s.length) '0').asString ++ s

/-- Civil date of an epoch-day count (inverse of `daysFromCivil`). -/
def civilFromDays (z : Int) : Int × Int × Int :=
  let z2 := z + 719468
  let era := Int.fdiv z2 146097
  let doe := z2 - era * 146097
  let yoe := (doe - doe / 1460 + doe / 36524 - doe / 146097) / 365
  let y := yoe + era * 400
  let doy := doe - (365 * yoe + yoe / 4 - yoe / 100)
  let mp := (5 * doy + 2) / 153
  let d := doy - (153 * mp + 2) / 5 + 1
  let m := if mp < 10 then mp + 3 else mp - 9
  (if m ≤ 2 then y + 1 else y, m, d)

/-- Model of Go `t.In(time.UTC).Format(time.RFC3339)` for whole-second UTC
instants. -/
def formatRFC3339 (t : Int) : String :=
  let days := Int.fdiv t 86400
  let secs := (t - days * 86400).toNat
  let ymd := civilFromDays days
  padZeros 4 ymd.1.toNat ++ "-" ++ padZeros 2 ymd.2.1.toNat ++ "-" ++
    padZeros 2 ymd.2.2.toNat ++ "T" ++ padZeros 2 (secs / 3600) ++ ":" ++
    padZeros 2 (secs % 3600 / 60) ++ ":" ++ padZeros 2 (secs % 60) ++ "Z"

/-- The Dublin Core document built by `CNCHook.dcRecordFromData`
(`cncdb/cncdb.go` concatenation, lines 331-362): element arrays in the order
the source `Add`s them; a description entry appears when the corresponding
`sql.NullString` is `Valid`, whatever its string; the language element only
for corpus records with a resolved locale. -/
def dcMetadataFromData (data : DBData) : DublinCore :=
  { title := [⟨data.titleEN, "en"⟩, ⟨data.titleCS, "cs"⟩]
    description :=
      (if data.descCS.valid then [⟨data.descCS.str, "cs"⟩] else []) ++
      (if data.descEN.valid then [⟨data.descEN.str, "en"⟩] else [])
    date := [⟨formatRFC3339 data.date, ""⟩]
    creator := (getAuthorList data.authors).map (fun a =>
      if a.firstName = "" then ⟨a.lastName, ""⟩
      else ⟨a.firstName ++ " " ++ a.lastName, ""⟩)
    identifier := [⟨data.name, ""⟩]
    type_ := [⟨data.type_, ""⟩]
    rights := [⟨data.license, ""⟩]
    language :=
      if data.type_ = corpusMetadataType then
        match data.corpusData.locale with
        | some tag => [⟨tag.base, ""⟩]
        | none => []
      else [] }

/-- Embedding of `CNCHook.dcRecordFromData`: the document above wrapped as a
record with identifier and UTC datestamp. -/
def dcRecordFromData (data : DBData) : OAIPMHRecord :=
  { header := some { datestamp := data.date, identifier := toString data.id }
    metadata := some (.dc (dcMetadataFromData data)) }

/-- Static configuration consumed by the hook (repository info and metadata
values from `cnf.Conf`). -/
structure Conf where
  repositoryName : String := ""
  baseURL : String := ""
  adminEmail : List String := []
  publisher : String := ""

/-- Embedding of `CNCHook.cmdiLindatClarinRecordFromData` (`cncdb/cncdb.go`
concatenation, lines 370-458).  Kept faithfully: the `Dates` component is
populated only when `DateIssued` is empty (as in the source); the corpus
branch adds size/language/keyword components and the search-page proxy; a
non-empty link adds a resource proxy, with `wiki.korpus.cz` links rewritten
to their English path variant. -/
def cmdiLindatClarinRecordFromData (conf : Conf) (data : DBData) :
    OAIPMHRecord :=
  let recordID := toString data.id
  let profile : CNCResourceProfile := {
    bibliographicInfo := {
      titles := [⟨data.titleEN, "en"⟩, ⟨data.titleCS, "cs"⟩]
      identifiers := [{ value := data.name }]
      authors := getAuthorList data.authors
      contactPerson := {
        lastName := data.contactPerson.lastname
        firstName := data.contactPerson.firstname
        email := data.contactPerson.email
        affiliation := data.contactPerson.affiliation.str }
      publishers := [conf.publisher] }
    dataInfo := {
      type_ := data.type_
      description := [⟨data.descEN.str, "en"⟩, ⟨data.descCS.str, "cs"⟩] }
    licenseInfo := [{ uri := data.license }] }
  let profile :=
    if data.dateIssued = "" then
      { profile with bibliographicInfo := { profile.bibliographicInfo with
          dates := some { dateIssued := data.dateIssued } } }
    else profile
  let profile :=
    if data.type_ = corpusMetadataType then
      let p := { profile with dataInfo := { profile.dataInfo with
        sizeInfo := some [{ size := toString data.corpusData.size.int,
                            unit := "words" }] } }
      let p :=
        match data.corpusData.locale with
        | some tag =>
          { p with dataInfo := { p.dataInfo with
              languages := some [{ name := englishDisplayName tag.base,
                                   code := tag.base }] } }
        | none => p
      if data.corpusData.keywords.str ≠ "" then
        { p with dataInfo := { p.dataInfo with
            keywords := some ((splitChar ','
              data.corpusData.keywords.str.toList).map List.asString) } }
      else p
    else profile
  let proxies : List CMDIResourceProxy :=
    (if data.type_ = corpusMetadataType then
      [{ id := "sp_" ++ recordID
         resourceType := { mimeType := "text/html", value := "SearchPage" }
         resourceRef := getKontextPath data.name }]
     else []) ++
    (if data.link.str ≠ "" then
      [{ id := "uri_" ++ recordID
         resourceType := { mimeType := "text/html", value := "Resource" }
         resourceRef :=
           if containsSub "wiki.korpus.cz".toList data.link.str.toList then
             (replaceAll "/cnk:".toList "/en:cnk:".toList
               data.link.str.toList).asString
           else data.link.str }]
     else [])
  let metadata := { newCMDI profile with
    header := { mdProfile := cncResourceSchemaURL
                mdSelfLink := conf.baseURL ++ "/record/" ++ recordID ++
                  "?format=cmdi" }
    resources := { resourceProxyList := proxies } }
  { header := some { datestamp := data.date, identifier := recordID }
    metadata := some (.cmdi metadata) }

/-- Embedding of `formats.GetDublinCoreFormat`. -/
def dublinCoreFormat : OAIPMHMetadataFormat :=
  { metadataPref := dublinCorePref
    schema := "http://www.openarchives.org/OAI/2.0/oai_dc.xsd"
    metadataNamespace := "http://www.openarchives.org/OAI/2.0/oai_dc/" }

/-- Embedding of `formats.GetCMDIFormat` for the CNC resource profile. -/
def cmdiFormat : OAIPMHMetadataFormat :=
  { metadataPref := cmdiPref
    schema := cncResourceSchemaURL
    metadataNamespace := "http://www.clarin.eu/cmd/" }

/-- Embedding of `CNCHook.Identify`: configuration-derived repository info;
a failed `GetFirstDate` keeps the payload (with a zero datestamp, Go's zero
`time.Time`) and marks HTTP 500. -/
def cncIdentify (db : CNCDatabase) (conf : Conf) :
    ResultWrapper OAIPMHIdentify :=
  let earliest := match db.getFirstDate with | .ok t => t | .error _ => 0
  let result := newResultWrapper ({
    repositoryName := conf.repositoryName
    baseURL := conf.baseURL
    adminEmail := conf.adminEmail
    earliestDatestamp := earliest
    deletedRecord := "no"
    granularity := "YYYY-MM-DDThh:mm:ssZ" } : OAIPMHIdentify)
  match db.getFirstDate with
  | .ok _ => result
  | .error _ => { result with httpCode := 500 }

/-- Embedding of `CNCHook.GetRecord`: repository lookup, `idDoesNotExist`
(404) for a missing or deleted identifier, then conversion per metadata
format. -/
def cncGetRecord (db : CNCDatabase) (conf : Conf) (req : OAIPMHRequest) :
    ResultWrapper OAIPMHRecord :=
  match db.getRecordInfo req.identifier with
  | .error _ => { data := {}, httpCode := 500 }
  | .ok none =>
    { data := {}
      errors := [⟨.idDoesNotExist,
        "Result for ID = " ++ req.identifier ++ " not found"⟩]
      httpCode := 404 }
  | .ok (some data) =>
    if req.metadataPref = dublinCorePref then
      { data := dcRecordFromData data, httpCode := 200 }
    else if req.metadataPref = cmdiPref then
      { data := cmdiLindatClarinRecordFromData conf data, httpCode := 200 }
    else
      { data := {}
        errors := [⟨.cannotDisseminateFormat, "Unknown metadata format"⟩]
        httpCode := 400 }

/-- Embedding of `CNCHook.ListIdentifiers`: list by range, `noRecordsMatch`
on an empty result (HTTP code untouched at 200), then per-format header
extraction. -/
def cncListIdentifiers (db : CNCDatabase) (conf : Conf)
    (req : OAIPMHRequest) : ResultWrapper (List OAIPMHRecordHeader) :=
  match db.listRecordInfo req.fromTime req.untilTime with
  | .error _ => { data := [], httpCode := 500 }
  | .ok data =>
    if data.length = 0 then
      { data := []
        errors := [⟨.noRecordsMatch, "No records"⟩]
        httpCode := 200 }
    else if req.metadataPref = dublinCorePref then
      { data := data.map (fun d => (dcRecordFromData d).header.getD {})
        httpCode := 200 }
    else if req.metadataPref = cmdiPref then
      { data := data.map (fun d =>
          (cmdiLindatClarinRecordFromData conf d).header.getD {})
        httpCode := 200 }
    else
      { data := []
        errors := [⟨.cannotDisseminateFormat, "Unknown metadata format"⟩]
        httpCode := 400 }

/-- Embedding of `CNCHook.ListRecords` (as `ListIdentifiers`, but emitting
full records). -/
def cncListRecords (db : CNCDatabase) (conf : Conf) (req : OAIPMHRequest) :
    ResultWrapper (List OAIPMHRecord) :=
  match db.listRecordInfo req.fromTime req.untilTime with
  | .error _ => { data := [], httpCode := 500 }
  | .ok data =>
    if data.length = 0 then
      { data := []
        errors := [⟨.noRecordsMatch, "No records"⟩]
        httpCode := 200 }
    else if req.metadataPref = dublinCorePref then
      { data := data.map dcRecordFromData, httpCode := 200 }
    else if req.metadataPref = cmdiPref then
      { data := data.map (cmdiLindatClarinRecordFromData conf)
        httpCode := 200 }
    else
      { data := []
        errors := [⟨.cannotDisseminateFormat, "Unknown metadata format"⟩]
        httpCode := 400 }

/-- Embedding of `CNCHook.ListMetadataFormats`: the two static formats; a
supplied identifier must exist (else `idDoesNotExist`, 404). -/
def cncListMetadataFormats (db : CNCDatabase) (req : OAIPMHRequest) :
    ResultWrapper (List OAIPMHMetadataFormat) :=
  let ans := newResultWrapper [dublinCoreFormat, cmdiFormat]
  if req.identifier ≠ "" then
    match db.identifierExists req.identifier with
    | .error _ => { ans with httpCode := 500 }
    | .ok false =>
      { ans with
        errors := [⟨.idDoesNotExist,
          "Result for ID = " ++ req.identifier ++ " not found"⟩]
        httpCode := 404 }
    | .ok true => ans
  else ans

/-- Embedding of `NewCNCHook` as a `VLOHook`: `ListSets` returns an empty
wrapper, sets are unsupported, and exactly the two format prefixes are
supported. -/
def cncHook (db : CNCDatabase) (conf : Conf) : VLOHook :=
  { identify := cncIdentify db conf
    getRecord := cncGetRecord db conf
    listIdentifiers := cncListIdentifiers db conf
    listMetadataFormats := fun req => cncListMetadataFormats db req
    listRecords := cncListRecords db conf
    listSets := fun _ => newResultWrapper []
    supportsSets := false
    supportedMetadataPrefs := [dublinCorePref, cmdiPref] }

/-! ## Derived observations used by the claim statements -/

/-- Number of populated verb-specific result fields on a response. -/
def payloadCount (r : OAIPMHResponse) : Nat :=
  (if r.identify.isSome then 1 else 0) +
  (if r.getRecord.isSome then 1 else 0) +
  (if r.listMetadataFormats.isSome then 1 else 0) +
  (if r.listIdentifiers.isSome then 1 else 0) +
  (if r.listRecords.isSome then 1 else 0) +
  (if r.listSets.isSome then 1 else 0)

/-- Is the result field matching the given verb populated? -/
def verbPayloadSet (v : String) (r : OAIPMHResponse) : Bool :=
  if v = verbIdentify then r.identify.isSome
  else if v = verbGetRecord then r.getRecord.isSome
  else if v = verbListIdentifiers then r.listIdentifiers.isSome
  else if v = verbListMetadataFormats then r.listMetadataFormats.isSome
  else if v = verbListRecords then r.listRecords.isSome
  else if v = verbListSets then r.listSets.isSome
  else false

/-- A database stub whose list query returns no rows and whose lookup finds
nothing; used to instantiate theorems at concrete inputs. -/
def emptyDB : CNCDatabase :=
  { getFirstDate := .ok 0
    identifierExists := fun _ => .ok false
    getRecordInfo := fun _ => .ok none
    listRecordInfo := fun _ _ => .ok [] }

/-- Simple executable stand-in for `language.Parse`, used to instantiate
locale-parser theorems: accepts exactly the non-empty all-lowercase strings
of at most three letters (so `"en"` parses, `"en_EN"` and `"xx_YY_ZZ"` do
not). -/
def langParseModel : String → Option LangTag := fun s =>
  if s.length ≤ 3 ∧ s ≠ "" ∧ s.toList.all (fun c => c.isLower) then
    some ⟨s⟩
  else none

/-! ## Validation-stage lemmas (`getReqResp`) -/

theorem getReqResp_missing_verb (url : String) (args : List (String × String))
    (h : argsHas args argVerb = false) :
    getReqResp url args =
      .ok ({ url := url },
        [⟨.badArgument, "Missing required argument " ++ argVerb⟩]) := by
  simp [getReqResp, h]

theorem getReqResp_bad_verb (url : String) (args : List (String × String))
    (h1 : argsHas args argVerb = true)
    (h2 : verbValidate (argsGet args argVerb) = false) :
    getReqResp url args =
      .ok ({ url := url, verb := argsGet args argVerb },
        [⟨.badVerb, "Invalid verb " ++ argsGet args argVerb⟩]) := by
  simp [getReqResp, h1, h2]

theorem getReqResp_missing_required (url : String)
    (args : List (String × String))
    (h1 : argsHas args argVerb = true)
    (h2 : verbValidate (argsGet args argVerb) = true)
    (h3 : verbValidateRequiredArgs (argsGet args argVerb) args ≠ "") :
    getReqResp url args =
      .ok ({ url := url, verb := argsGet args argVerb },
        [⟨.badArgument, "Missing required argument " ++
          verbValidateRequiredArgs (argsGet args argVerb) args ++
          " for verb " ++ argsGet args argVerb⟩]) := by
  simp [getReqResp, h1, h2, h3]

theorem getReqResp_disallowed_arg (url : String)
    (args : List (String × String)) (kv : String × String)
    (h1 : argsHas args argVerb = true)
    (h2 : verbValidate (argsGet args argVerb) = true)
    (h3 : verbValidateRequiredArgs (argsGet args argVerb) args = "")
    (h4 : args.find?
      (fun kv => !verbValidateArg (argsGet args argVerb) kv.1) = some kv) :
    getReqResp url args =
      .ok ({ url := url, verb := argsGet args argVerb },
        [⟨.badArgument, "Invalid argument " ++ kv.1 ++ " for verb " ++
          argsGet args argVerb⟩]) := by
  simp [getReqResp, h1, h2, h3, h4]

theorem getReqResp_success (url : String) (args : List (String × String))
    (fromT untilT : Option Int)
    (h1 : argsHas args argVerb = true)
    (h2 : verbValidate (argsGet args argVerb) = true)
    (h3 : verbValidateRequiredArgs (argsGet args argVerb) args = "")
    (h4 : args.find?
      (fun kv => !verbValidateArg (argsGet args argVerb) kv.1) = none)
    (h5 : parseFromField (argsGet args argFrom) = .ok fromT)
    (h6 : parseUntilField (argsGet args argUntil) = .ok untilT) :
    getReqResp url args =
      .ok ({ url := url
             verb := argsGet args argVerb
             identifier := argsGet args argIdentifier
             metadataPref := argsGet args argMetadataPref
             fromTime := fromT
             untilTime := untilT
             set := argsGet args argSet
             resumptionToken := argsGet args argResumptionToken }, []) := by
  simp [getReqResp, h1, h2, h3, h4, h5, h6]

theorem getReqResp_date_failure (url : String)
    (args : List (String × String))
    (h1 : argsHas args argVerb = true)
    (h2 : verbValidate (argsGet args argVerb) = true)
    (h3 : verbValidateRequiredArgs (argsGet args argVerb) args = "")
    (h4 : args.find?
      (fun kv => !verbValidateArg (argsGet args argVerb) kv.1) = none)
    (h5 : (parseFromField (argsGet args argFrom)).isOk = false ∨
          (parseUntilField (argsGet args argUntil)).isOk = false) :
    ∃ e, getReqResp url args = .error e := by
  cases hf : parseFromField (argsGet args argFrom) with
  | error e => exact ⟨e, by simp [getReqResp, h1, h2, h3, h4, hf]⟩
  | ok fromT =>
    cases hu : parseUntilField (argsGet args argUntil) with
    | error e => exact ⟨e, by simp [getReqResp, h1, h2, h3, h4, hf, hu]⟩
    | ok untilT =>
      rw [hf, hu] at h5
      simp [Except.isOk, Except.toBool] at h5

theorem getReqResp_from_error (url : String) (args : List (String × String))
    (e : String)
    (h1 : argsHas args argVerb = true)
    (h2 : verbValidate (argsGet args argVerb) = true)
    (h3 : verbValidateRequiredArgs (argsGet args argVerb) args = "")
    (h4 : args.find?
      (fun kv => !verbValidateArg (argsGet args argVerb) kv.1) = none)
    (h5 : parseFromField (argsGet args argFrom) = .error e) :
    getReqResp url args = .error e := by
  simp [getReqResp, h1, h2, h3, h4, h5]

theorem getReqResp_until_error (url : String) (args : List (String × String))
    (fromT : Option Int) (e : String)
    (h1 : argsHas args argVerb = true)
    (h2 : verbValidate (argsGet args argVerb) = true)
    (h3 : verbValidateRequiredArgs (argsGet args argVerb) args = "")
    (h4 : args.find?
      (fun kv => !verbValidateArg (argsGet args argVerb) kv.1) = none)
    (h5 : parseFromField (argsGet args argFrom) = .ok fromT)
    (h6 : parseUntilField (argsGet args argUntil) = .error e) :
    getReqResp url args = .error e := by
  simp [getReqResp, h1, h2, h3, h4, h5, h6]

/-- Validation succeeds with an empty error list exactly when the verb is
present and known, all of its required arguments are present, every supplied
argument is allowed, and both date bounds (when supplied) parse. -/
theorem getReqResp_success_iff (url : String)
    (args : List (String × String)) :
    (∃ req, getReqResp url args = .ok (req, [])) ↔
      (argsHas args argVerb = true ∧
       verbValidate (argsGet args argVerb) = true ∧
       verbValidateRequiredArgs (argsGet args argVerb) args = "" ∧
       args.all (fun kv => verbValidateArg (argsGet args argVerb) kv.1) = true ∧
       (parseFromField (argsGet args argFrom)).isOk = true ∧
       (parseUntilField (argsGet args argUntil)).isOk = true) := by
  constructor
  · rintro ⟨req, hok⟩
    by_cases h1 : argsHas args argVerb = true
    case neg =>
      rw [getReqResp_missing_verb url args (by simpa using h1)] at hok
      simp at hok
    by_cases h2 : verbValidate (argsGet args argVerb) = true
    case neg =>
      rw [getReqResp_bad_verb url args h1 (by simpa using h2)] at hok
      simp at hok
    by_cases h3 : verbValidateRequiredArgs (argsGet args argVerb) args = ""
    case neg =>
      rw [getReqResp_missing_required url args h1 h2 h3] at hok
      simp at hok
    cases h4 : args.find?
        (fun kv => !verbValidateArg (argsGet args argVerb) kv.1) with
    | some kv =>
      rw [getReqResp_disallowed_arg url args kv h1 h2 h3 h4] at hok
      simp at hok
    | none =>
      have hall :
          args.all (fun kv => verbValidateArg (argsGet args argVerb) kv.1)
            = true := by
        rw [List.all_eq_true]
        intro x hx
        have := List.find?_eq_none.mp h4 x hx
        simpa using this
      cases h5 : parseFromField (argsGet args argFrom) with
      | error e =>
        rw [getReqResp_from_error url args e h1 h2 h3 h4 h5] at hok
        exact absurd hok (by simp)
      | ok fromT =>
        cases h6 : parseUntilField (argsGet args argUntil) with
        | error e =>
          rw [getReqResp_until_error url args fromT e h1 h2 h3 h4 h5 h6] at hok
          exact absurd hok (by simp)
        | ok untilT =>
          exact ⟨h1, h2, h3, hall, by simp [h5, Except.isOk, Except.toBool],
            by simp [h6, Except.isOk, Except.toBool]⟩
  · rintro ⟨h1, h2, h3, hall, hf, hu⟩
    have h4 : args.find?
        (fun kv => !verbValidateArg (argsGet args argVerb) kv.1) = none := by
      rw [List.find?_eq_none]
      intro x hx
      have := List.all_eq_true.mp hall x hx
      simp [this]
    cases h5 : parseFromField (argsGet args argFrom) with
    | error e => rw [h5] at hf; simp [Except.isOk, Except.toBool] at hf
    | ok fromT =>
      cases h6 : parseUntilField (argsGet args argUntil) with
      | error e => rw [h6] at hu; simp [Except.isOk, Except.toBool] at hu
      | ok untilT =>
        exact ⟨_, getReqResp_success url args fromT untilT h1 h2 h3 h4 h5 h6⟩

/-- Every validation outcome carries either no error or exactly one, coded
`badArgument` or `badVerb`. -/
theorem getReqResp_errors_shape (url : String)
    (args : List (String × String)) (req : OAIPMHRequest)
    (errs : List OAIPMHError)
    (hok : getReqResp url args = .ok (req, errs)) :
    errs = [] ∨ ∃ e, errs = [e] ∧
      (e.code = .badArgument ∨ e.code = .badVerb) := by
  by_cases h1 : argsHas args argVerb = true
  case neg =>
    rw [getReqResp_missing_verb url args (by simpa using h1)] at hok
    refine .inr ⟨⟨.badArgument, "Missing required argument " ++ argVerb⟩,
      ?_, .inl rfl⟩
    cases hok
    rfl
  by_cases h2 : verbValidate (argsGet args argVerb) = true
  case neg =>
    rw [getReqResp_bad_verb url args h1 (by simpa using h2)] at hok
    refine .inr ⟨⟨.badVerb, "Invalid verb " ++ argsGet args argVerb⟩,
      ?_, .inr rfl⟩
    cases hok
    rfl
  by_cases h3 : verbValidateRequiredArgs (argsGet args argVerb) args = ""
  case neg =>
    rw [getReqResp_missing_required url args h1 h2 h3] at hok
    refine .inr ⟨⟨.badArgument, "Missing required argument " ++
      verbValidateRequiredArgs (argsGet args argVerb) args ++
      " for verb " ++ argsGet args argVerb⟩, ?_, .inl rfl⟩
    cases hok
    rfl
  cases h4 : args.find?
      (fun kv => !verbValidateArg (argsGet args argVerb) kv.1) with
  | some kv =>
    rw [getReqResp_disallowed_arg url args kv h1 h2 h3 h4] at hok
    refine .inr ⟨⟨.badArgument, "Invalid argument " ++ kv.1 ++ " for verb " ++
      argsGet args argVerb⟩, ?_, .inl rfl⟩
    cases hok
    rfl
  | none =>
    cases h5 : parseFromField (argsGet args argFrom) with
    | error e =>
      rw [getReqResp_from_error url args e h1 h2 h3 h4 h5] at hok
      cases hok
    | ok fromT =>
      cases h6 : parseUntilField (argsGet args argUntil) with
      | error e =>
        rw [getReqResp_until_error url args fromT e h1 h2 h3 h4 h5 h6] at hok
        cases hok
      | ok untilT =>
        rw [getReqResp_success url args fromT untilT h1 h2 h3 h4 h5 h6] at hok
        cases hok
        exact .inl rfl

/-- C1 (amended).  For every raw parameter map, validation succeeds
(producing a typed request and an empty error list) if and only if the
`verb` parameter is present, names one of the six enumerated verbs, every
required argument of that verb is present, every supplied argument is in
that verb's allowed set, **and every supplied `from`/`until` value parses as
a date or timestamp** (a malformed date is a hard internal failure, not a
protocol error).  The first violated grammar check, evaluated in the order
missing-verb, unknown-verb, missing-required-argument, disallowed-argument,
yields exactly one error (`badArgument` naming the offending argument, or
`badVerb` for an unknown verb) and validation stops without invoking the
dispatcher: the outcome is the fixed 400 response, whatever the hook. -/
theorem c1_amended_validation (url : String)
    (args : List (String × String)) :
    ((∃ req, getReqResp url args = .ok (req, [])) ↔
      (argsHas args argVerb = true ∧
       verbValidate (argsGet args argVerb) = true ∧
       verbValidateRequiredArgs (argsGet args argVerb) args = "" ∧
       args.all (fun kv => verbValidateArg (argsGet args argVerb) kv.1) = true ∧
       (parseFromField (argsGet args argFrom)).isOk = true ∧
       (parseUntilField (argsGet args argUntil)).isOk = true)) ∧
    (∀ req errs, getReqResp url args = .ok (req, errs) →
      errs = [] ∨ ∃ e, errs = [e] ∧
        (e.code = .badArgument ∨ e.code = .badVerb)) ∧
    (argsHas args argVerb = false →
      getReqResp url args = .ok ({ url := url },
        [⟨.badArgument, "Missing required argument " ++ argVerb⟩])) ∧
    (argsHas args argVerb = true →
      verbValidate (argsGet args argVerb) = false →
      getReqResp url args = .ok ({ url := url, verb := argsGet args argVerb },
        [⟨.badVerb, "Invalid verb " ++ argsGet args argVerb⟩])) ∧
    (argsHas args argVerb = true →
      verbValidate (argsGet args argVerb) = true →
      verbValidateRequiredArgs (argsGet args argVerb) args ≠ "" →
      getReqResp url args = .ok ({ url := url, verb := argsGet args argVerb },
        [⟨.badArgument, "Missing required argument " ++
          verbValidateRequiredArgs (argsGet args argVerb) args ++
          " for verb " ++ argsGet args argVerb⟩])) ∧
    (∀ kv, argsHas args argVerb = true →
      verbValidate (argsGet args argVerb) = true →
      verbValidateRequiredArgs (argsGet args argVerb) args = "" →
      args.find? (fun kv => !verbValidateArg (argsGet args argVerb) kv.1) =
        some kv →
      getReqResp url args = .ok ({ url := url, verb := argsGet args argVerb },
        [⟨.badArgument, "Invalid argument " ++ kv.1 ++ " for verb " ++
          argsGet args argVerb⟩])) ∧
    (∀ h req errs, getReqResp url args = .ok (req, errs) → errs ≠ [] →
      handleOAIGet h url args = .write 400 { request := req, errors := errs }) := by
  refine ⟨getReqResp_success_iff url args,
    fun req errs hok => getReqResp_errors_shape url args req errs hok,
    fun h => getReqResp_missing_verb url args h,
    fun h1 h2 => getReqResp_bad_verb url args h1 h2,
    fun h1 h2 h3 => getReqResp_missing_required url args h1 h2 h3,
    fun kv h1 h2 h3 h4 => getReqResp_disallowed_arg url args kv h1 h2 h3 h4,
    fun h req errs hok hne => ?_⟩
  simp only [handleOAIGet, hok]
  simp [hne]

/-- C1 (counterexample).  The parameter map
`verb=ListRecords&metadataPrefix=oai_dc&from=not-a-date` satisfies all four
conditions the claim lists (verb present and known, required arguments
present, all supplied arguments allowed), yet validation does not succeed:
the malformed `from` date aborts it with a hard error (HTTP 500 at the
caller), so the claimed "if and only if" fails right-to-left. -/
theorem c1_counterexample :
    (argsHas [("verb", "ListRecords"), ("metadataPrefix", "oai_dc"),
        ("from", "not-a-date")] argVerb = true ∧
     verbValidate "ListRecords" = true ∧
     verbValidateRequiredArgs "ListRecords"
       [("verb", "ListRecords"), ("metadataPrefix", "oai_dc"),
        ("from", "not-a-date")] = "" ∧
     List.all [("verb", "ListRecords"), ("metadataPrefix", "oai_dc"),
        ("from", "not-a-date")]
       (fun kv => verbValidateArg "ListRecords" kv.1) = true) ∧
    getReqResp "" [("verb", "ListRecords"), ("metadataPrefix", "oai_dc"),
      ("from", "not-a-date")] =
        .error "failed to parse from: not-a-date" := by
  exact ⟨by decide, by rfl⟩

/-- Witness for `c1_amended_validation` at concrete parameter maps: a bare
`verb=Identify` map validates successfully, and an unknown verb produces the
fixed 400 response with one `badVerb` error for any hook (here the CNC hook
over the empty database stub). -/
theorem c1_witness :
    (∃ req, getReqResp "" [("verb", "Identify")] = .ok (req, [])) ∧
    handleOAIGet (cncHook emptyDB {}) "" [("verb", "NoSuchVerb")] =
      .write 400 { request := { url := "", verb := "NoSuchVerb" },
                   errors := [⟨.badVerb, "Invalid verb " ++ "NoSuchVerb"⟩] } := by
  refine ⟨(c1_amended_validation "" [("verb", "Identify")]).1.mpr
    (by refine ⟨by decide, by decide, by decide, by decide, ?_, ?_⟩ <;> rfl),
    (c1_amended_validation "" [("verb", "NoSuchVerb")]).2.2.2.2.2.2
      (cncHook emptyDB {}) _ _ ?_ (by simp)⟩
  exact (c1_amended_validation "" [("verb", "NoSuchVerb")]).2.2.2.1
    (by decide) (by decide)

/-- C3 (counterexample).  `until=2024-01-15` parses to the instant
2024-01-16T00:00:00Z (epoch second 1705363200), but the repository's range
condition compares with `<=`: a record whose last-modified timestamp is
exactly 2024-01-16T00:00:00Z still matches, so the bound is *not* exclusive
as the claim states. -/
theorem c3_counterexample :
    parseUntilField "2024-01-15" = .ok (some 1705363200) ∧
    parseRFC3339Chars "2024-01-16T00:00:00Z".toList = some 1705363200 ∧
    ¬ (recordMatchesRange none (some 1705363200) 1705363200 = false) :=
  ⟨by rfl, by decide, by decide⟩

/-- C3 (amended).  An `until` value supplied as a bare calendar date is
parsed as that date's start plus one full day, so `until=2024-01-15` and
`until=2024-01-16T00:00:00Z` produce the same bound — which the repository
then applies as an *inclusive* upper bound on the last-modified timestamp
(`GREATEST(created, updated) <= ?`): a record modified exactly at
2024-01-16T00:00:00Z is included. -/
theorem c3_amended_until_bound :
    (∀ (s : String) (t : Int), containsSub ['T'] s.toList = false →
      parseDateOnlyChars s.toList = some t →
      parseUntilField s = .ok (some (t + 86400))) ∧
    parseUntilField "2024-01-15" = .ok (some 1705363200) ∧
    parseRFC3339Chars "2024-01-16T00:00:00Z".toList = some 1705363200 ∧
    (∀ (u lastModified : Int),
      recordMatchesRange none (some u) lastModified =
        decide (lastModified ≤ u)) ∧
    recordMatchesRange none (some 1705363200) 1705363200 = true := by
  refine ⟨?_, by rfl, by decide, ?_, by decide⟩
  · intro s t hT hparse
    by_cases hs : s = ""
    · subst hs
      have hnone : parseDateOnlyChars ("" : String).toList = none := by decide
      rw [hnone] at hparse
      cases hparse
    · simp only [String.toList] at hT hparse
      simp [parseUntilField, hs, hT, hparse]
  · intro u lastModified
    simp [recordMatchesRange]

/-- Witness for `c3_amended_until_bound` at the concrete date: the start of
2024-01-15 is epoch second 1705276800, and the parsed `until` bound is one
day later. -/
theorem c3_witness :
    parseUntilField "2024-01-15" = .ok (some (1705276800 + 86400)) :=
  c3_amended_until_bound.1 "2024-01-15" 1705276800 (by decide) (by decide)

/-- C4 (confirmed).  A `GetRecord` request whose identifier the repository
cannot resolve to a non-deleted record produces exactly one `idDoesNotExist`
error with HTTP 404, an empty record (no metadata body), and the dispatched
response carries the single error and no `GetRecord` payload. -/
theorem c4_getrecord_not_found (db : CNCDatabase) (conf : Conf)
    (req : OAIPMHRequest) (h : db.getRecordInfo req.identifier = .ok none) :
    cncGetRecord db conf req =
      { data := {}
        errors := [⟨.idDoesNotExist,
          "Result for ID = " ++ req.identifier ++ " not found"⟩]
        httpCode := 404 } ∧
    (cncGetRecord db conf req).data.metadata = none ∧
    (req.verb = verbGetRecord →
      (req.metadataPref = dublinCorePref ∨ req.metadataPref = cmdiPref) →
      handleRequest (cncHook db conf) req { request := req } =
        .write 404 { request := req,
                     errors := [⟨.idDoesNotExist,
                       "Result for ID = " ++ req.identifier ++ " not found"⟩],
                     getRecord := none }) := by
  have hw : cncGetRecord db conf req =
      { data := {}
        errors := [⟨.idDoesNotExist,
          "Result for ID = " ++ req.identifier ++ " not found"⟩]
        httpCode := 404 } := by
    simp [cncGetRecord, h]
  refine ⟨hw, by rw [hw], ?_⟩
  intro hv hp
  rcases hp with hp | hp <;>
    simp [handleRequest, hv, hp, cncHook, hw, finishResp,
      ResultWrapper.noError, verbGetRecord, verbIdentify, dublinCorePref,
      cmdiPref]

/-- Witness for `c4_getrecord_not_found`: the empty database stub resolves
no identifier, so `GetRecord` for identifier "42" in Dublin Core format
dispatches to a 404 response with one `idDoesNotExist` error. -/
theorem c4_witness :
    handleRequest (cncHook emptyDB {})
        { verb := "GetRecord", identifier := "42", metadataPref := "oai_dc" }
        { request := { verb := "GetRecord", identifier := "42",
                       metadataPref := "oai_dc" } } =
      .write 404 { request := { verb := "GetRecord", identifier := "42",
                                metadataPref := "oai_dc" },
                   errors := [⟨.idDoesNotExist,
                     "Result for ID = " ++ "42" ++ " not found"⟩],
                   getRecord := none } :=
  (c4_getrecord_not_found emptyDB {}
    { verb := "GetRecord", identifier := "42", metadataPref := "oai_dc" }
    (by rfl)).2.2 (by rfl) (.inl (by rfl))

/-- C5 (confirmed).  When the repository returns zero records for the
requested range, both `ListRecords` and `ListIdentifiers` return a single
`noRecordsMatch` error with the HTTP code left at 200 and an empty result
list — not an internal error, not a 4xx. -/
theorem c5_no_records_match (db : CNCDatabase) (conf : Conf)
    (req : OAIPMHRequest)
    (h : db.listRecordInfo req.fromTime req.untilTime = .ok [])
    (hp : req.metadataPref = dublinCorePref ∨ req.metadataPref = cmdiPref) :
    cncListRecords db conf req =
      { data := [], errors := [⟨.noRecordsMatch, "No records"⟩],
        httpCode := 200 } ∧
    cncListIdentifiers db conf req =
      { data := [], errors := [⟨.noRecordsMatch, "No records"⟩],
        httpCode := 200 } := by
  constructor <;> simp [cncListRecords, cncListIdentifiers, h]

/-- Witness for `c5_no_records_match` on the empty database stub with a
Dublin Core `ListRecords` request. -/
theorem c5_witness :
    cncListRecords emptyDB {}
        { verb := "ListRecords", metadataPref := "oai_dc" } =
      { data := [], errors := [⟨.noRecordsMatch, "No records"⟩],
        httpCode := 200 } :=
  (c5_no_records_match emptyDB {}
    { verb := "ListRecords", metadataPref := "oai_dc" }
    (by rfl) (.inl (by rfl))).1

/-- A record whose Czech description is a present-but-empty string
(`sql.NullString{Valid: true, String: ""}`) and whose English description is
present and non-empty. -/
def c6Record : DBData :=
  { descCS := { valid := true, str := "" }
    descEN := { valid := true, str := "An English description" } }

/-- C6 (counterexample).  The Dublin Core converter keys emission on the
`Valid` flag, not on string emptiness: a record whose Czech description is
the empty string (but non-NULL) and whose English description is non-empty
produces *two* description elements — one of them blank, tagged `cs` —
contradicting the claim that empty values are omitted and exactly one
`en`-tagged element is emitted. -/
theorem c6_counterexample :
    c6Record.descCS.str = "" ∧ c6Record.descEN.str ≠ "" ∧
    (dcMetadataFromData c6Record).description =
      [⟨"", "cs"⟩, ⟨"An English description", "en"⟩] ∧
    ¬ ((dcMetadataFromData c6Record).description.length = 1) := by
  refine ⟨rfl, by decide, ?_, by simp [dcMetadataFromData, c6Record]⟩
  simp [dcMetadataFromData, c6Record]

/-- C6 (amended).  A description element is emitted exactly for each
*present* (`Valid`) description value, whatever its string: a record whose
Czech description is absent (NULL) and whose English description is present
emits exactly one `description` element, tagged `en` and carrying the
English string; a present-but-empty string is still emitted as a blank
element. -/
theorem c6_amended_descriptions (d : DBData) :
    (d.descCS.valid = false → d.descEN.valid = true →
      (dcMetadataFromData d).description = [⟨d.descEN.str, "en"⟩]) ∧
    (dcMetadataFromData d).description.length =
      ((if d.descCS.valid then 1 else 0) +
       (if d.descEN.valid then 1 else 0)) := by
  constructor
  · intro h1 h2
    simp [dcMetadataFromData, h1, h2]
  · by_cases h1 : d.descCS.valid <;> by_cases h2 : d.descEN.valid <;>
      simp [dcMetadataFromData, h1, h2]

/-- Witness for `c6_amended_descriptions`: NULL Czech description, present
English description "x" — exactly one element, tagged `en`. -/
theorem c6_witness :
    (dcMetadataFromData { descEN := { valid := true, str := "x" } }).description
      = [⟨"x", "en"⟩] :=
  (c6_amended_descriptions { descEN := { valid := true, str := "x" } }).1
    rfl rfl

/-- C7 (counterexample).  Splitting a line on single spaces never yields
zero tokens (an empty line yields one empty token), so no line is ever
skipped: the empty middle line of "Doe\n\nJane Smith" produces an author
with an empty last name, giving three authors where the claim predicts
two. -/
theorem c7_counterexample :
    getAuthorList "Doe\n\nJane Smith" =
      [{ lastName := "Doe" }, { lastName := "" },
       { lastName := "Smith", firstName := "Jane" }] ∧
    ¬ (getAuthorList "Doe\n\nJane Smith" =
      [{ lastName := "Doe" },
       { lastName := "Smith", firstName := "Jane" }]) := by
  constructor <;> decide

/-- C7 (amended).  The author parser splits the block into lines
(normalizing CRLF), trims each line, and splits it on *single spaces*
(consecutive spaces yield empty tokens).  Splitting always yields at least
one token, so every line — including an empty one — produces exactly one
author: one token yields a last-name-only author (an empty line yields an
empty last name), and two or more tokens yield first name = first token,
last name = second token, the remainder discarded.  In particular
"Doe\nJane Smith" yields exactly {lastName: "Doe"} and
{firstName: "Jane", lastName: "Smith"}. -/
theorem c7_amended_author_parsing :
    (∀ s : String, (getAuthorList s).length =
      (splitChar '\n' (replaceAll ['\r', '\n'] ['\n'] s.toList)).length) ∧
    getAuthorList "Doe\nJane Smith" =
      [{ lastName := "Doe" }, { lastName := "Smith", firstName := "Jane" }] ∧
    getAuthorList "" = [{ lastName := "" }] ∧
    getAuthorList "Jane Q Smith" =
      [{ lastName := "Q", firstName := "Jane" }] ∧
    getAuthorList "Jane  Smith" =
      [{ lastName := "", firstName := "Jane" }] := by
  refine ⟨?_, by decide, by decide, by decide, by decide⟩
  intro s
  simp only [getAuthorList, List.length_flatten, List.map_map]
  have hconst : (List.length ∘ lineAuthors) = fun _ => 1 :=
    funext fun line => lineAuthors_length line
  rw [hconst]
  simp [List.map_const']

/-- Reduction lemma: when the direct parse of the pre-"." component fails,
`parseLocale` takes the underscore fallback (the dash branch being
unreachable). -/
theorem parseLocale_fallback (lp : String → Option LangTag) (loc : String)
    (hnone : lp (((splitChar '.' loc.toList).headD []).asString) = none) :
    parseLocale lp loc =
      (if (splitChar '_' loc.toList).length = 2 then
        match lp (((splitChar '_' loc.toList).headD []).asString) with
        | some ans => .ok ans
        | none => .error ("unable to parse locale component of " ++ loc)
      else .error ("unable to parse locale " ++ loc)) := by
  have hc : ((splitChar '_' loc.toList).length = 0) = False := by
    simp [List.length_eq_zero, splitChar_ne_nil]
  simp only [parseLocale, hnone, hc, if_false]
  by_cases hl : (splitChar '_' loc.toList).length = 2
  · simp [hl]
  · simp [hl]

/-- C8 (confirmed).  With the external tag parser failing on "en_EN" but
accepting the bare "en" (as `golang.org/x/text` does — see
`TestParseLocaleBroken`), the locale parser resolves "en_EN" to base
language `en` with no error via the two-component underscore fallback, while
"xx_YY_ZZ" — three underscore components — is a parse error. -/
theorem c8_locale_fallback (lp : String → Option LangTag)
    (h1 : lp "en_EN" = none) (h2 : lp "en" = some ⟨"en"⟩)
    (h3 : lp "xx_YY_ZZ" = none) :
    parseLocale lp "en_EN" = .ok ⟨"en"⟩ ∧
    ∃ e, parseLocale lp "xx_YY_ZZ" = .error e := by
  constructor
  · have hnone : lp (((splitChar '.'
        ("en_EN" : String).toList).headD []).asString) = none := by
      rw [show ((splitChar '.' ("en_EN" : String).toList).headD []).asString
        = "en_EN" from by decide]
      exact h1
    rw [parseLocale_fallback lp "en_EN" hnone]
    rw [if_pos (by decide)]
    rw [show ((splitChar '_' ("en_EN" : String).toList).headD []).asString
      = "en" from by decide]
    rw [h2]
  · have hnone : lp (((splitChar '.'
        ("xx_YY_ZZ" : String).toList).headD []).asString) = none := by
      rw [show ((splitChar '.' ("xx_YY_ZZ" : String).toList).headD []).asString
        = "xx_YY_ZZ" from by decide]
      exact h3
    refine ⟨"unable to parse locale " ++ "xx_YY_ZZ", ?_⟩
    rw [parseLocale_fallback lp "xx_YY_ZZ" hnone]
    rw [if_neg (by decide)]

/-- Witness for `c8_locale_fallback` using the executable stand-in parser
(accepting exactly bare lowercase codes of up to three letters). -/
theorem c8_witness :
    parseLocale langParseModel "en_EN" = .ok ⟨"en"⟩ ∧
    ∃ e, parseLocale langParseModel "xx_YY_ZZ" = .error e :=
  c8_locale_fallback langParseModel (by decide) (by decide) (by decide)

/-- C10 (confirmed).  Splitting on "_" always yields at least one component,
so the locale parser's dash-split branch is dead code: deleting it
(`parseLocaleNoDash`) changes nothing.  Consequently, an input whose
remainder fails the direct tag parse is accepted only when its underscore
split has exactly two components, and an input with no underscore (e.g. one
using "-" as its only separator) that fails the direct parse always
errors. -/
theorem c10_dash_branch_dead (lp : String → Option LangTag) (loc : String) :
    parseLocale lp loc = parseLocaleNoDash lp loc ∧
    splitChar '_' loc.toList ≠ [] ∧
    (∀ tag, lp (((splitChar '.' loc.toList).headD []).asString) = none →
      parseLocale lp loc = .ok tag →
      (splitChar '_' loc.toList).length = 2) ∧
    ('_' ∉ loc.toList →
      lp (((splitChar '.' loc.toList).headD []).asString) = none →
      ∃ e, parseLocale lp loc = .error e) := by
  have hc : ((splitChar '_' loc.toList).length = 0) = False := by
    simp [List.length_eq_zero, splitChar_ne_nil]
  refine ⟨?_, splitChar_ne_nil '_' loc.toList, ?_, ?_⟩
  · simp only [parseLocale, parseLocaleNoDash, hc, if_false]
  · intro tag hnone hok
    rw [parseLocale_fallback lp loc hnone] at hok
    by_cases hl : (splitChar '_' loc.toList).length = 2
    · exact hl
    · rw [if_neg hl] at hok
      cases hok
  · intro hmem hnone
    have hsplit : splitChar '_' loc.toList = [loc.toList] :=
      splitChar_not_mem _ _ hmem
    refine ⟨"unable to parse locale " ++ loc, ?_⟩
    rw [parseLocale_fallback lp loc hnone, if_neg (by rw [hsplit]; simp)]

/-- Witness for `c10_dash_branch_dead`: "zz-YY" uses "-" as its only
separator and fails the stand-in direct parse, so the locale parser
errors. -/
theorem c10_witness :
    ∃ e, parseLocale langParseModel "zz-YY" = .error e :=
  (c10_dash_branch_dead langParseModel "zz-YY").2.2.2 (by decide) (by decide)

/-! ## Branch-selection lemmas for `handleRequest` -/

theorem handleRequest_identify (h : VLOHook) (req : OAIPMHRequest)
    (resp : OAIPMHResponse) (hv : req.verb = verbIdentify) :
    handleRequest h req resp =
      finishResp
        (if h.identify.noError then
          { resp with identify := some { h.identify.data with
              baseURL := req.url, protocolVersion := "2.0" } }
         else resp)
        h.identify.errors h.identify.httpCode := by
  unfold handleRequest
  rw [hv, if_pos rfl]

theorem handleRequest_getRecord (h : VLOHook) (req : OAIPMHRequest)
    (resp : OAIPMHResponse) (hv : req.verb = verbGetRecord) :
    handleRequest h req resp =
      (if h.supportedMetadataPrefs.contains req.metadataPref = false then
        .write 400 (addError resp .cannotDisseminateFormat
          "Unknown metadata format")
       else
        finishResp
          (if (h.getRecord req).noError then
            { resp with getRecord := some (h.getRecord req).data }
           else resp)
          (h.getRecord req).errors (h.getRecord req).httpCode) := by
  unfold handleRequest
  rw [hv, if_neg (by decide), if_pos rfl]

theorem handleRequest_listIdentifiers (h : VLOHook) (req : OAIPMHRequest)
    (resp : OAIPMHResponse) (hv : req.verb = verbListIdentifiers) :
    handleRequest h req resp =
      (if h.supportedMetadataPrefs.contains req.metadataPref = false then
        .write 400 (addError resp .cannotDisseminateFormat
          "Unknown metadata format")
       else if req.set ≠ "" ∧ h.supportsSets = false then
        .write 501 (addError resp .noSetHierarchy
          "Sets functionality not implemented")
       else
        finishResp
          (if (h.listIdentifiers req).noError then
            { resp with listIdentifiers := some (h.listIdentifiers req).data }
           else resp)
          (h.listIdentifiers req).errors (h.listIdentifiers req).httpCode) := by
  unfold handleRequest
  rw [hv, if_neg (by decide), if_neg (by decide), if_pos rfl]

theorem handleRequest_listMetadataFormats (h : VLOHook) (req : OAIPMHRequest)
    (resp : OAIPMHResponse) (hv : req.verb = verbListMetadataFormats) :
    handleRequest h req resp =
      finishResp
        (if (h.listMetadataFormats req).noError then
          { resp with
            listMetadataFormats := some (h.listMetadataFormats req).data }
         else resp)
        (h.listMetadataFormats req).errors
        (h.listMetadataFormats req).httpCode := by
  unfold handleRequest
  rw [hv, if_neg (by decide), if_neg (by decide), if_neg (by decide),
    if_pos rfl]

theorem handleRequest_listRecords (h : VLOHook) (req : OAIPMHRequest)
    (resp : OAIPMHResponse) (hv : req.verb = verbListRecords) :
    handleRequest h req resp =
      (if h.supportedMetadataPrefs.contains req.metadataPref = false then
        .write 400 (addError resp .cannotDisseminateFormat
          "Unknown metadata format")
       else if req.set ≠ "" ∧ h.supportsSets = false then
        .write 501 (addError resp .noSetHierarchy
          "Sets functionality not implemented")
       else
        finishResp
          (if (h.listRecords req).noError then
            { resp with listRecords := some (h.listRecords req).data }
           else resp)
          (h.listRecords req).errors (h.listRecords req).httpCode) := by
  unfold handleRequest
  rw [hv, if_neg (by decide), if_neg (by decide), if_neg (by decide),
    if_neg (by decide), if_pos rfl]

theorem handleRequest_listSets (h : VLOHook) (req : OAIPMHRequest)
    (resp : OAIPMHResponse) (hv : req.verb = verbListSets) :
    handleRequest h req resp =
      (if h.supportsSets = false then
        .write 501 (addError resp .noSetHierarchy
          "Sets functionality not implemented")
       else
        finishResp
          (if (h.listSets req).noError then
            { resp with listSets := some (h.listSets req).data }
           else resp)
          (h.listSets req).errors (h.listSets req).httpCode) := by
  unfold handleRequest
  rw [hv, if_neg (by decide), if_neg (by decide), if_neg (by decide),
    if_neg (by decide), if_neg (by decide), if_pos rfl]

theorem handleRequest_default (h : VLOHook) (req : OAIPMHRequest)
    (resp : OAIPMHResponse)
    (hv1 : ¬ req.verb = verbIdentify) (hv2 : ¬ req.verb = verbGetRecord)
    (hv3 : ¬ req.verb = verbListIdentifiers)
    (hv4 : ¬ req.verb = verbListMetadataFormats)
    (hv5 : ¬ req.verb = verbListRecords) (hv6 : ¬ req.verb = verbListSets) :
    handleRequest h req resp =
      finishResp
        (addError resp .badArgument ("Verb not implemented " ++ req.verb))
        [] 501 := by
  unfold handleRequest
  rw [if_neg hv1, if_neg hv2, if_neg hv3, if_neg hv4, if_neg hv5, if_neg hv6]

theorem payloadCount_set_errors (r : OAIPMHResponse)
    (e : List OAIPMHError) : payloadCount { r with errors := e } =
      payloadCount r := rfl

theorem verbPayloadSet_set_errors (v : String) (r : OAIPMHResponse)
    (e : List OAIPMHError) : verbPayloadSet v { r with errors := e } =
      verbPayloadSet v r := rfl

/-- Shape of a hook-backed branch of `handleRequest`: from an error-free
response with no payload (`base`) and its one-payload update (`upd`), the
epilogue writes a payload exactly when the wrapper reported no error and an
HTTP code below 400, and aborts only with a 400+ code. -/
theorem dispatch_step {α : Type} (v : String) (ans : ResultWrapper α)
    (base upd : OAIPMHResponse)
    (hbe : base.errors = []) (hbp : payloadCount base = 0)
    (hue : upd.errors = []) (hup : payloadCount upd = 1)
    (huv : verbPayloadSet v upd = true) :
    (∀ c r, finishResp (if ans.noError then upd else base) ans.errors
        ans.httpCode = .write c r →
      ((r.errors = [] → payloadCount r = 1 ∧ verbPayloadSet v r = true) ∧
       (r.errors ≠ [] → payloadCount r = 0))) ∧
    (∀ c, finishResp (if ans.noError then upd else base) ans.errors
        ans.httpCode = .abort c → 400 ≤ c) := by
  simp only [finishResp]
  by_cases han : ans.noError = true
  · obtain ⟨hae, hcode⟩ : ans.errors = [] ∧ ans.httpCode < 400 := by
      simpa [ResultWrapper.noError] using han
    rw [if_pos han, hue, hae]
    simp only [List.append_nil]
    rw [if_neg (by intro hcon; omega)]
    constructor
    · intro c r hw
      cases hw
      refine ⟨fun _ => ⟨?_, ?_⟩, fun hne => absurd rfl hne⟩
      · rw [payloadCount_set_errors]
        exact hup
      · rw [verbPayloadSet_set_errors]
        exact huv
    · intro c hab
      cases hab
  · rw [if_neg han, hbe]
    simp only [List.nil_append]
    by_cases hcond : 400 ≤ ans.httpCode ∧ ans.errors = []
    · rw [if_pos hcond]
      constructor
      · intro c r hw
        cases hw
      · intro c hab
        cases hab
        exact hcond.1
    · rw [if_neg hcond]
      constructor
      · intro c r hw
        cases hw
        refine ⟨fun he => ?_, fun _ => by rw [payloadCount_set_errors]; exact hbp⟩
        exfalso
        have hae : ans.errors = [] := he
        have hlt : ¬ 400 ≤ ans.httpCode := fun hge => hcond ⟨hge, hae⟩
        refine han ?_
        unfold ResultWrapper.noError
        rw [hae]
        simp only [List.isEmpty_nil, Bool.true_and]
        exact decide_eq_true (by omega)
      · intro c hab
        cases hab

/-- Shape of a precondition-failure branch: a directly written response
whose error list is the one added error and which has no payload. -/
theorem write_error_shape (v : String) (base : OAIPMHResponse)
    (hbe : base.errors = []) (hbp : payloadCount base = 0) (code : Nat)
    (ec : OAIPMHErrorCode) (msg : String) :
    (∀ c r, (HandleOutcome.write code (addError base ec msg)) = .write c r →
      ((r.errors = [] → payloadCount r = 1 ∧ verbPayloadSet v r = true) ∧
       (r.errors ≠ [] → payloadCount r = 0))) ∧
    (∀ c, (HandleOutcome.write code (addError base ec msg)) = .abort c →
      400 ≤ c) := by
  constructor
  · intro c r hw
    cases hw
    refine ⟨fun he => ?_, fun _ => ?_⟩
    · exfalso
      simp [addError, hbe] at he
    · rw [show payloadCount (addError base ec msg) = payloadCount base
        from rfl]
      exact hbp
  · intro c hab
    cases hab

/-- C2 (confirmed).  For every handled request (dispatched on a fresh
response), a written response carries a populated verb-specific payload if
and only if its error list is empty — on success exactly the one field
matching the verb is set, never both a payload and a non-empty error list —
and a bodyless abort only happens with a 400+ status (the
data-empty-failure path), so no response with a payload is ever dropped. -/
theorem c2_payload_iff_no_errors (h : VLOHook) (req : OAIPMHRequest) :
    (∀ c r, handleRequest h req { request := req } = .write c r →
      ((r.errors = [] → payloadCount r = 1 ∧
          verbPayloadSet req.verb r = true) ∧
       (r.errors ≠ [] → payloadCount r = 0))) ∧
    (∀ c, handleRequest h req { request := req } = .abort c → 400 ≤ c) := by
  by_cases hv1 : req.verb = verbIdentify
  · simp only [handleRequest_identify h req { request := req } hv1]
    exact dispatch_step req.verb h.identify _ _ rfl rfl rfl rfl
      (by rw [hv1]; rfl)
  by_cases hv2 : req.verb = verbGetRecord
  · simp only [handleRequest_getRecord h req { request := req } hv2]
    by_cases hpref : h.supportedMetadataPrefs.contains req.metadataPref
        = false
    · rw [if_pos hpref]
      exact write_error_shape req.verb { request := req } rfl rfl 400 _ _
    · rw [if_neg hpref]
      exact dispatch_step req.verb (h.getRecord req) _ _ rfl rfl rfl rfl
        (by rw [hv2]; rfl)
  by_cases hv3 : req.verb = verbListIdentifiers
  · simp only [handleRequest_listIdentifiers h req { request := req } hv3]
    by_cases hpref : h.supportedMetadataPrefs.contains req.metadataPref
        = false
    · rw [if_pos hpref]
      exact write_error_shape req.verb { request := req } rfl rfl 400 _ _
    · rw [if_neg hpref]
      by_cases hset : req.set ≠ "" ∧ h.supportsSets = false
      · rw [if_pos hset]
        exact write_error_shape req.verb { request := req } rfl rfl 501 _ _
      · rw [if_neg hset]
        exact dispatch_step req.verb (h.listIdentifiers req) _ _ rfl rfl rfl
          rfl (by rw [hv3]; rfl)
  by_cases hv4 : req.verb = verbListMetadataFormats
  · simp only
      [handleRequest_listMetadataFormats h req { request := req } hv4]
    exact dispatch_step req.verb (h.listMetadataFormats req) _ _ rfl rfl rfl
      rfl (by rw [hv4]; rfl)
  by_cases hv5 : req.verb = verbListRecords
  · simp only [handleRequest_listRecords h req { request := req } hv5]
    by_cases hpref : h.supportedMetadataPrefs.contains req.metadataPref
        = false
    · rw [if_pos hpref]
      exact write_error_shape req.verb { request := req } rfl rfl 400 _ _
    · rw [if_neg hpref]
      by_cases hset : req.set ≠ "" ∧ h.supportsSets = false
      · rw [if_pos hset]
        exact write_error_shape req.verb { request := req } rfl rfl 501 _ _
      · rw [if_neg hset]
        exact dispatch_step req.verb (h.listRecords req) _ _ rfl rfl rfl rfl
          (by rw [hv5]; rfl)
  by_cases hv6 : req.verb = verbListSets
  · simp only [handleRequest_listSets h req { request := req } hv6]
    by_cases hss : h.supportsSets = false
    · rw [if_pos hss]
      exact write_error_shape req.verb { request := req } rfl rfl 501 _ _
    · rw [if_neg hss]
      exact dispatch_step req.verb (h.listSets req) _ _ rfl rfl rfl rfl
        (by rw [hv6]; rfl)
  · simp only [handleRequest_default h req { request := req }
      hv1 hv2 hv3 hv4 hv5 hv6]
    simp only [finishResp]
    constructor
    · intro c r hw
      rw [if_neg (by simp [addError])] at hw
      cases hw
      refine ⟨fun he => ?_, fun _ => rfl⟩
      exfalso
      simp [addError] at he
    · intro c hab
      rw [if_neg (by simp [addError])] at hab
      cases hab

/-- The response written for an `Identify` request against the CNC hook
over the empty database stub, used by the witness below. -/
def c2WitnessResp : OAIPMHResponse :=
  { request := { verb := "Identify" }
    identify := some
      { repositoryName := ""
        baseURL := ""
        adminEmail := []
        earliestDatestamp := 0
        deletedRecord := "no"
        granularity := "YYYY-MM-DDThh:mm:ssZ"
        protocolVersion := "2.0" } }

/-- Witness for `c2_payload_iff_no_errors`: an `Identify` request against
the CNC hook over the empty database stub is written with HTTP 200, an
empty error list, and exactly the `Identify` payload populated. -/
theorem c2_witness :
    payloadCount c2WitnessResp = 1 ∧
    verbPayloadSet "Identify" c2WitnessResp = true :=
  ((c2_payload_iff_no_errors (cncHook emptyDB {})
    { verb := "Identify" }).1 200 c2WitnessResp rfl).1 rfl

/-- A one-row database stub resolving every identifier to the same service
record. -/
def sampleRecord : DBData :=
  { id := 7, date := 0, type_ := "service", name := "svc", titleEN := "T",
    titleCS := "T", license := "L", authors := "Doe" }

def oneRecordDB : CNCDatabase :=
  { getFirstDate := .ok 0
    identifierExists := fun _ => .ok true
    getRecordInfo := fun _ => .ok (some sampleRecord)
    listRecordInfo := fun _ _ => .ok [sampleRecord] }

def c9Req : OAIPMHRequest :=
  { verb := "ListRecords", metadataPref := "oai_dc", set := "" }

/-- C9 (confirmed).  A `ListRecords`/`ListIdentifiers` request supplying
`set=` with an empty value passes validation (the parameter is present and
allowed) and parses to an empty `Set` field; the dispatcher's
`noSetHierarchy` precondition tests the parsed value, not the parameter's
presence, so with an empty set value the set-support flag is irrelevant and
the request proceeds to the hook (and so to the repository); and when both
the format and the set precondition would fail, the
`cannotDisseminateFormat` check wins, being evaluated first. -/
theorem c9_empty_set_value (p : String) (h : VLOHook)
    (req : OAIPMHRequest) :
    (getReqResp ""
        [("verb", "ListRecords"), ("metadataPrefix", p), ("set", "")] =
      .ok ({ url := "", verb := "ListRecords", metadataPref := p }, [])) ∧
    (getReqResp ""
        [("verb", "ListIdentifiers"), ("metadataPrefix", p), ("set", "")] =
      .ok ({ url := "", verb := "ListIdentifiers", metadataPref := p }, [])) ∧
    (req.set = "" →
      (req.verb = verbListRecords ∨ req.verb = verbListIdentifiers) →
      handleRequest h req { request := req } =
        handleRequest { h with supportsSets := true } req
          { request := req }) ∧
    (req.verb = verbListRecords → req.set = "" →
      h.supportedMetadataPrefs.contains req.metadataPref = true →
      (h.listRecords req).noError = true →
      handleRequest h req { request := req } =
        .write (h.listRecords req).httpCode
          { request := req
            errors := (h.listRecords req).errors
            listRecords := some (h.listRecords req).data }) ∧
    (req.verb = verbListRecords → req.set ≠ "" → h.supportsSets = false →
      h.supportedMetadataPrefs.contains req.metadataPref = false →
      handleRequest h req { request := req } =
        .write 400 { request := req,
                     errors := [⟨.cannotDisseminateFormat,
                       "Unknown metadata format"⟩] }) := by
  refine ⟨by rfl, by rfl, ?_, ?_, ?_⟩
  · intro hset hvd
    rcases hvd with hv | hv
    · rw [handleRequest_listRecords h req { request := req } hv,
        handleRequest_listRecords { h with supportsSets := true } req
          { request := req } hv]
      simp [hset]
    · rw [handleRequest_listIdentifiers h req { request := req } hv,
        handleRequest_listIdentifiers { h with supportsSets := true } req
          { request := req } hv]
      simp [hset]
  · intro hv hset hpref hne
    rw [handleRequest_listRecords h req { request := req } hv]
    rw [if_neg (by rw [hpref]; simp), if_neg (by simp [hset]), if_pos hne]
    obtain ⟨hae, hcode⟩ :
        (h.listRecords req).errors = [] ∧ (h.listRecords req).httpCode < 400
      := by simpa [ResultWrapper.noError] using hne
    simp only [finishResp]
    rw [if_neg (by intro hcon; omega)]
    simp [hae]
  · intro hv hset hss hpref
    rw [handleRequest_listRecords h req { request := req } hv,
      if_pos hpref]
    simp [addError]

/-- Witness for `c9_empty_set_value`: against the one-row database stub, a
`ListRecords` request with an empty `set` value reaches the hook and its
result list is written (no `noSetHierarchy`). -/
theorem c9_witness :
    handleRequest (cncHook oneRecordDB {}) c9Req { request := c9Req } =
      .write (cncListRecords oneRecordDB {} c9Req).httpCode
        { request := c9Req
          errors := (cncListRecords oneRecordDB {} c9Req).errors
          listRecords := some (cncListRecords oneRecordDB {} c9Req).data } :=
  (c9_empty_set_value "oai_dc" (cncHook oneRecordDB {}) c9Req).2.2.2.1
    rfl rfl (by rfl) (by rfl)

end CncVlo
